import Mathlib

/-!
# Verification of the CAPM / Fama-French regression notebook

Shallow embedding of the data-preparation, regression and diagnostic
pipeline of `CAPM_Fama_Regression_Notebook.ipynb`.

Modelling conventions:

* A pandas `Series` with a (unique) time index is a `List (Nat × Option ℚ)`:
  the key is the timestamp, `none` is `NaN`.
* A multi-column return table is a `List (Nat × List (Option ℚ))`
  (timestamp, one cell per instrument column).
* Floating-point numbers are modelled by `ℚ`; `np.log` and other
  transcendental routines (`sqrt`, χ² survival function, the
  Shapiro/Breusch-Pagan/White statistic internals) are abstract function
  parameters, since the claims under study are about data-flow, alignment
  and the rational-arithmetic part of the formulas, not about the values
  of transcendental functions.
-/

namespace CapmFama

/-- One pandas series: list of (timestamp, value), `none` = `NaN`. -/
abbrev Series := List (Nat × Option ℚ)

/-- `series[t]` as pandas `.get`-style lookup: `none` when the key is
absent *or* the stored value is `NaN` (both appear as missing data). -/
def getVal (s : Series) (t : Nat) : Option ℚ :=
  (List.lookup t s).join

/-- `series.dropna()`: keep the rows whose value is not `NaN`. -/
def dropna (s : Series) : List (Nat × ℚ) :=
  s.filterMap (fun p => p.2.map (fun v => (p.1, v)))

/-! ## Return Transform (`calculate_log_returns`, notebook cell 17)

Source:
```python
def calculate_log_returns(df):
    date_column = df.iloc[:, 0]
    log_returns = np.log(df.iloc[:, 1:].shift(1) / df.iloc[:, 1:])
    log_returns.insert(0, 'Date', date_column)
    return log_returns
```
One instrument column is modelled: a price column `prices : List ℚ`
turns into a column of optional log-returns.  `shift(1)` moves every
value one row down, filling row 0 with `NaN` and discarding the last
value; the division and `np.log` are applied elementwise, `NaN`
propagating.  `log` is an abstract parameter standing for `np.log`. -/

/-- `df.shift(1)` on one column: `NaN` first, original values shifted
down by one, last value dropped (same length). -/
def shift1 (prices : List ℚ) : List (Option ℚ) :=
  none :: prices.dropLast.map some

/-- `np.log(col.shift(1) / col)` for one instrument column. -/
def calculate_log_returns (log : ℚ → ℚ) (prices : List ℚ) : List (Option ℚ) :=
  List.zipWith (fun o c => o.map (fun prev => log (prev / c))) (shift1 prices) prices

/-- The Return Transform stage as run by the pipeline (cell 30):
`df1 = calculate_log_returns(...)` followed by `df1 = df1[1:]`, which
removes the first (predecessor-less) row from the returned series. -/
def log_returns_stage (log : ℚ → ℚ) (prices : List ℚ) : List (Option ℚ) :=
  (calculate_log_returns log prices).drop 1

/-- Spec-side definition (for the refinement comparison of claim C1):
"for each pair of consecutive time steps, the value
`ln(price_prev / price_current)`", written directly as a recursion over
the price list with the running previous price. -/
def logReturnsSpec (log : ℚ → ℚ) : ℚ → List ℚ → List (Option ℚ)
  | _, [] => []
  | prev, c :: rest => some (log (prev / c)) :: logReturnsSpec log c rest

/-! ## Gap repair (`replace_nans_and_zeros_with_mean`, notebook cell 17)

Source:
```python
def replace_nans_and_zeros_with_mean(series):
    valid_values = series[(series != 0) & series.notna()]
    overall_mean = valid_values.mean()
    if valid_values.empty:
        return series
    valid_indices = valid_values.index
    first_valid_index = valid_indices.min()
    last_valid_index = valid_indices.max()
    mask = ((series == 0) | series.isna()) & (series.index >= first_valid_index) & (series.index <= last_valid_index)
    series.loc[mask] = overall_mean
    return series
```
-/

/-- `series[(series != 0) & series.notna()]`: rows that are neither
`NaN` nor exactly zero. -/
def validValues (s : Series) : List (Nat × ℚ) :=
  s.filterMap (fun p =>
    match p.2 with
    | some v => if v = 0 then none else some (p.1, v)
    | none => none)

/-- Mean of the valid values (`valid_values.mean()`). -/
def overallMean (s : Series) : ℚ :=
  ((validValues s).map Prod.snd).sum / ((validValues s).length : ℚ)

/-- `valid_indices.min()`. -/
def firstValidIndex (s : Series) : Nat :=
  match validValues s with
  | [] => 0
  | v :: vs => vs.foldl (fun a p => min a p.1) v.1

/-- `valid_indices.max()`. -/
def lastValidIndex (s : Series) : Nat :=
  match validValues s with
  | [] => 0
  | v :: vs => vs.foldl (fun a p => max a p.1) v.1

/-- `replace_nans_and_zeros_with_mean` itself. -/
def replace_nans_and_zeros_with_mean (s : Series) : Series :=
  if (validValues s).isEmpty then s
  else
    s.map (fun p =>
      if (p.2 = some 0 ∨ p.2 = none) ∧
          firstValidIndex s ≤ p.1 ∧ p.1 ≤ lastValidIndex s
      then (p.1, some (overallMean s))
      else p)

/-! ## Excess Return Aligner (notebook cell 30)

Source:
```python
df_riskfree_aligned = df_riskfree.reindex(df1.index)
df_log_excess_return_etf = df1.where(df1 == 0, df1.subtract(df_riskfree_aligned['ln riskfree'], axis=0))
...
df1.replace(0.00, np.nan, inplace=True)
df_log_excess_return_etf.replace(0.00, np.nan, inplace=True)
```
`df.where(cond, other)` keeps the original cell where `cond` holds and
takes `other` elsewhere; `NaN == 0` is false, so `NaN` cells take the
(NaN-propagating) subtraction.  Reindex-then-subtract along the
returns' own index amounts to looking up the risk-free value at each
row's timestamp. -/

/-- A multi-column return table: (timestamp, one cell per instrument). -/
abbrev Table := List (Nat × List (Option ℚ))

/-- One cell of `df1.where(df1 == 0, df1.subtract(rf, axis=0))`:
an exactly-zero return is kept as zero, any other cell becomes
`return - rf[t]` with `NaN` propagating. -/
def excessCell (rfv : Option ℚ) (r : Option ℚ) : Option ℚ :=
  if r = some 0 then some 0 else r.bind (fun a => rfv.map (fun b => a - b))

/-- `align_and_subtract`: reindex the risk-free series onto the return
table's time index and apply `excessCell` to every cell. -/
def align_and_subtract (returns : Table) (rf : Series) : Table :=
  returns.map (fun p => (p.1, p.2.map (excessCell (getVal rf p.1))))

/-- `df.replace(0.00, np.nan)` on one cell. -/
def zeroToNan (v : Option ℚ) : Option ℚ :=
  if v = some 0 then none else v

/-- `df.replace(0.00, np.nan)` on a whole table. -/
def replaceZeros (tbl : Table) : Table :=
  tbl.map (fun p => (p.1, p.2.map zeroToNan))

/-- The whole Excess Return Aligner stage of cell 30: build the excess
table, then run the zero→`NaN` replacement pass over both the raw
return table and the excess table. -/
def excessStage (returns : Table) (rf : Series) : Table × Table :=
  (replaceZeros returns, replaceZeros (align_and_subtract returns rf))

/-- Cell access in a table (out-of-range reads give `none`). -/
def cellAt (tbl : Table) (i j : Nat) : Option ℚ :=
  ((tbl.getD i (0, [])).2).getD j none

/-- Timestamp of row `i` of a table. -/
def keyAt (tbl : Table) (i : Nat) : Nat :=
  (tbl.getD i (0, [])).1

/-! ## Regression Engine (`regression_capm` / `regression_fama`, cell 19)

Source (per dependent column, CAPM shown; the Fama-French variant is
identical with three regressor columns):
```python
regression_data = pd.concat([y, X], axis=1).dropna()
y_clean = regression_data.iloc[:, 0]
X_clean = sm.add_constant(regression_data.iloc[:, 1])
model = sm.OLS(y_clean, X_clean)
results = model.fit()
...
residuals_dict[column] = pd.Series(results.resid).reindex(log_excess_return.index).tolist()
fitted_values_dict[column] = pd.Series(results.fittedvalues).reindex(log_excess_return.index).tolist()
```
`pd.concat(..., axis=1).dropna()` keeps exactly the timestamps at which
the dependent column and every regressor column hold a non-`NaN`
value; `results.resid` / `results.fittedvalues` are indexed by those
timestamps and carry a (real, never-`NaN`) value at each. -/

/-- Timestamps of the rows used during estimation:
`pd.concat([y, X...], axis=1).dropna().index`. -/
def cleanKeys (y : Series) (Xs : List Series) : List Nat :=
  (y.map Prod.fst).filter
    (fun t => (getVal y t).isSome && Xs.all (fun X => (getVal X t).isSome))

/-- A per-estimation-row output series (`results.resid` or
`results.fittedvalues`): one value per clean row, indexed by it. -/
def onCleanKeys (y : Series) (Xs : List Series) (f : Nat → ℚ) : List (Nat × ℚ) :=
  (cleanKeys y Xs).map (fun t => (t, f t))

/-- `pd.Series(vals).reindex(idx)`: one row per requested timestamp,
missing where the value series has no entry. -/
def reindexOnto (vals : List (Nat × ℚ)) (idx : List Nat) : Series :=
  idx.map (fun t => (t, List.lookup t vals))

/-- `pd.Series(results.resid).reindex(log_excess_return.index)`: the
re-expansion of an estimation output onto the original (pre-drop) time
index. -/
def reexpandOntoOriginal (y : Series) (Xs : List Series) (f : Nat → ℚ) : Series :=
  reindexOnto (onCleanKeys y Xs f) (y.map Prod.fst)

/-- Result record of one CAPM fit (`results.params`, `results.resid`,
`results.fittedvalues`; the inferential statistics are not needed by
the claims under study). -/
structure CAPMFit where
  alpha : ℚ
  beta : ℚ
  resid : List ℚ
  fitted : List ℚ
deriving DecidableEq

/-- The clean estimation rows as `(y, x)` pairs. -/
def cleanPairs (y X : Series) : List (ℚ × ℚ) :=
  (cleanKeys y [X]).map (fun t => ((getVal y t).getD 0, (getVal X t).getD 0))

/-- `sm.OLS(y_clean, add_constant(x_clean)).fit()`.  `statsmodels`
solves least squares through the Moore-Penrose pseudoinverse, so it
also produces parameters when the design `[1, x]` is rank deficient,
which happens exactly when `n*Sxx - Sx^2 = 0`, i.e. when the regressor
column is constant (or the data empty); in that case the fit is the
minimum-norm solution. -/
def olsCAPM (data : List (ℚ × ℚ)) : CAPMFit :=
  let n : ℚ := (data.length : ℚ)
  let Sx := (data.map Prod.snd).sum
  let Sy := (data.map Prod.fst).sum
  let Sxx := (data.map (fun p => p.2 * p.2)).sum
  let Sxy := (data.map (fun p => p.1 * p.2)).sum
  let det := n * Sxx - Sx * Sx
  let ab :=
    if det = 0 then
      let c := (data.headD (0, 0)).2
      let ybar := Sy / n
      (ybar / (1 + c * c), c * ybar / (1 + c * c))
    else ((Sxx * Sy - Sx * Sxy) / det, (n * Sxy - Sx * Sy) / det)
  let fitted := data.map (fun p => ab.1 + ab.2 * p.2)
  { alpha := ab.1, beta := ab.2,
    resid := (data.zip fitted).map (fun q => q.1.1 - q.2),
    fitted := fitted }

/-- Modelled from the spec: §7's error kinds (`InsufficientDataError`,
`SingularDesignError`, `IndexAlignmentError`, `InvalidColumnTypeError`).
The source defines no error classes at all; this type exists so the
spec's claimed failure behaviour can be stated and compared with what
the code does. -/
inductive RegError
  | insufficientData
  | singularDesign
  | indexAlignment
  | invalidColumnType
deriving DecidableEq

/-- One dependent column's trip through `regression_capm`: join with
the regressor, drop missing rows, fit.  The source performs no
minimum-observation check and raises nothing, so the result is always
`Except.ok` of the OLS output, whatever the number of remaining
rows. -/
def regression_capm_column (y X : Series) : Except RegError CAPMFit :=
  Except.ok (olsCAPM (cleanPairs y X))

/-! ## Diagnostic Test Suite (`combined_tests`, cell 24)

Source (per residual column):
```python
residuals = residuals_df[column].dropna()
matching_indices = residuals.index
if not pd.api.types.is_datetime64_any_dtype(matching_indices):
    try:
        matching_indices = pd.to_datetime(matching_indices)
    except Exception as e:
        print(f'Error converting indices to datetime for column "{column}": {e}')
        continue
residuals = residuals.sort_index()
...
regressor_filtered = regressor.loc[matching_indices].sort_index()
exog_with_const = sm.add_constant(regressor_filtered)
bp_test_result = het_breuschpagan(residuals, exog_with_const)
...
white_test_result = het_white(residuals, exog_with_const)
...
shapiro_test = stats.shapiro(residuals)
...
jb_test = stats.jarque_bera(residuals)
skewness = stats.skew(residuals)
kurtosis = stats.kurtosis(residuals, fisher=False)  # Pearson
```
The intermediate `fitted_values` / `excess_returns` locals feed only
the plots, not the four returned tables, and are omitted.  Index keys
are modelled by `TKey`: a proper date, or a label on which
`pd.to_datetime` fails. -/

/-- A raw time-index key: a date, or a label that `pd.to_datetime`
cannot convert. -/
inductive TKey
  | date (d : Nat)
  | text (s : String)
deriving DecidableEq

/-- `pd.to_datetime` on one key. -/
def toDate : TKey → Option Nat
  | .date d => some d
  | .text _ => none

/-- A series over raw diagnostic-index keys. -/
abbrev TSeries := List (TKey × Option ℚ)

/-- `series.dropna()` over raw keys. -/
def dropnaT (s : TSeries) : List (TKey × ℚ) :=
  s.filterMap (fun p => p.2.map (fun v => (p.1, v)))

/-- `pd.to_datetime(matching_indices)`: every key of the non-missing
residual rows must convert, otherwise the conversion throws. -/
def convertIndex (col : TSeries) : Option (List (Nat × ℚ)) :=
  (dropnaT col).mapM (fun p => (toDate p.1).map (fun d => (d, p.2)))

/-- Insertion step for `sort_index()`. -/
def insertSorted (p : Nat × ℚ) : List (Nat × ℚ) → List (Nat × ℚ)
  | [] => [p]
  | q :: qs => if p.1 ≤ q.1 then p :: q :: qs else q :: insertSorted p qs

/-- `sort_index()`: sort rows by timestamp, ascending. -/
def sortByKey : List (Nat × ℚ) → List (Nat × ℚ)
  | [] => []
  | p :: ps => insertSorted p (sortByKey ps)

/-- The numeric routines of `scipy`/`statsmodels` that the diagnostic
loop calls but whose values the claims never inspect: the
Breusch-Pagan and White tests (each returning LM statistic, LM
p-value, F statistic, F p-value), the Shapiro-Wilk test (statistic,
p-value), the real square root used inside the skewness formula, and
the χ²(2) survival function giving the Jarque-Bera p-value. -/
structure StatBackend where
  bp : List ℚ → List (List ℚ) → ℚ × ℚ × ℚ × ℚ
  white : List ℚ → List (List ℚ) → ℚ × ℚ × ℚ × ℚ
  shapiro : List ℚ → ℚ × ℚ
  sqrtQ : ℚ → ℚ
  chi2sf2 : ℚ → ℚ

/-- Sample mean. -/
def meanQ (xs : List ℚ) : ℚ :=
  xs.sum / (xs.length : ℚ)

/-- Biased sample central moment of order `k` (scipy's default). -/
def centralMoment (xs : List ℚ) (k : Nat) : ℚ :=
  ((xs.map (fun v => (v - meanQ xs) ^ k)).sum) / (xs.length : ℚ)

/-- `scipy.stats.skew` (biased): `m3 / m2^(3/2)`, the square root
taken through the abstract back end. -/
def skewSample (f : ℚ → ℚ) (xs : List ℚ) : ℚ :=
  centralMoment xs 3 / (centralMoment xs 2 * f (centralMoment xs 2))

/-- `scipy.stats.kurtosis(xs, fisher=False)`: Pearson kurtosis
`m4 / m2^2` — 3 for a normal sample, with no `- 3` shift. -/
def kurtosisPearson (xs : List ℚ) : ℚ :=
  centralMoment xs 4 / (centralMoment xs 2) ^ 2

/-- `scipy.stats.kurtosis(xs)` with the default `fisher=True`: excess
kurtosis, 0 for a normal sample. -/
def kurtosisFisher (xs : List ℚ) : ℚ :=
  centralMoment xs 4 / (centralMoment xs 2) ^ 2 - 3

/-- The Jarque-Bera statistic `n/6 * (S^2 + (K-3)^2 / 4)` as
`scipy.stats.jarque_bera` computes it. -/
def jbStat (f : ℚ → ℚ) (xs : List ℚ) : ℚ :=
  (xs.length : ℚ) / 6 * ((skewSample f xs) ^ 2 + (kurtosisPearson xs - 3) ^ 2 / 4)

/-- One row of the Breusch-Pagan or White result table. -/
structure HetRow where
  fund : String
  lm : ℚ
  lmPval : ℚ
  fstat : ℚ
  fPval : ℚ
deriving DecidableEq

/-- One row of the Shapiro-Wilk result table. -/
structure ShapiroRow where
  fund : String
  stat : ℚ
  pval : ℚ
deriving DecidableEq

/-- One row of the Jarque-Bera result table. -/
structure JBRow where
  fund : String
  stat : ℚ
  pval : ℚ
  skewness : ℚ
  kurtosis : ℚ
deriving DecidableEq

/-- The four rows one residual column contributes. -/
structure ColumnRows where
  bp : HetRow
  white : HetRow
  shapiro : ShapiroRow
  jb : JBRow
deriving DecidableEq

/-- `sm.add_constant(regressor.loc[matching_indices])`: the regressor
rows at the matching timestamps, a constant 1 prepended. -/
def exogRows (reg : List (TKey × List ℚ)) (keys : List Nat) : List (List ℚ) :=
  keys.map (fun d => 1 :: ((List.lookup (TKey.date d) reg).getD []))

/-- The residual sample a column contributes to every test: dropna,
convert the index to datetime, sort ascending, take the values. -/
def residSample (col : TSeries) : List ℚ :=
  match convertIndex col with
  | none => []
  | some r0 => (sortByKey r0).map Prod.snd

/-- One column's trip through the loop body of `combined_tests`:
`none` when the index conversion fails (the source prints a message
and `continue`s before any of the four tables is touched), otherwise
the four result rows. -/
def testColumn (B : StatBackend) (reg : List (TKey × List ℚ))
    (name : String) (col : TSeries) : Option ColumnRows :=
  match convertIndex col with
  | none => none
  | some r0 =>
      let r := sortByKey r0
      let resids := r.map Prod.snd
      let exog := exogRows reg (r.map Prod.fst)
      let bpr := B.bp resids exog
      let whr := B.white resids exog
      let shr := B.shapiro resids
      some {
        bp := { fund := name, lm := bpr.1, lmPval := bpr.2.1,
                fstat := bpr.2.2.1, fPval := bpr.2.2.2 },
        white := { fund := name, lm := whr.1, lmPval := whr.2.1,
                   fstat := whr.2.2.1, fPval := whr.2.2.2 },
        shapiro := { fund := name, stat := shr.1, pval := shr.2 },
        jb := { fund := name, stat := jbStat B.sqrtQ resids,
                pval := B.chi2sf2 (jbStat B.sqrtQ resids),
                skewness := skewSample B.sqrtQ resids,
                kurtosis := kurtosisPearson resids } }

/-- `combined_tests`: loop over the residual columns in order,
appending each processed column's rows to the four tables; a column
whose index fails to convert contributes to none of them. -/
def combined_tests (B : StatBackend) (residualsDf : List (String × TSeries))
    (reg : List (TKey × List ℚ)) :
    List HetRow × List HetRow × List ShapiroRow × List JBRow :=
  let processed := residualsDf.filterMap (fun p => testColumn B reg p.1 p.2)
  (processed.map (fun c => c.bp), processed.map (fun c => c.white),
    processed.map (fun c => c.shapiro), processed.map (fun c => c.jb))

/-- A back end whose routines all return 0, used to instantiate the
diagnostic theorems on concrete inputs. -/
def constBackend : StatBackend :=
  { bp := fun _ _ => (0, 0, 0, 0), white := fun _ _ => (0, 0, 0, 0),
    shapiro := fun _ => (0, 0), sqrtQ := fun _ => 0, chi2sf2 := fun _ => 0 }

/-! ## Multicollinearity: VIF (`vif_fama`, cell 28)

Source:
```python
def vif_fama(df_regressor_fama):
    df_with_constant = sm.add_constant(df_regressor_fama)
    vif_data = pd.DataFrame()
    vif_data['Variable'] = df_with_constant.columns
    vif_data['VIF'] = [variance_inflation_factor(df_with_constant.values, i) for i in range(df_with_constant.shape[1])]
    return vif_data
```
`variance_inflation_factor(exog, i)` regresses column `i` on all the
other columns and returns `1 / (1 - rsquared)`; `statsmodels` uses the
centred R² when the auxiliary design carries a constant column and the
uncentred R² otherwise (the implicit-constant rank check is out of
scope of the claims).  The linear solve is modelled by Cramer's rule;
the auxiliary designs in the claims' scope are full rank (a singular
system is given the zero coefficient vector). -/

/-- Dot product of two rows. -/
def dotL (a b : List ℚ) : ℚ :=
  ((a.zip b).map (fun p => p.1 * p.2)).sum

/-- Column `j` of a row-major matrix. -/
def colOf (rows : List (List ℚ)) (j : Nat) : List ℚ :=
  rows.map (fun r => r.getD j 0)

/-- Determinant by Laplace expansion along the first row. -/
def detM : List (List ℚ) → ℚ
  | [] => 1
  | r :: rs =>
      ((List.range r.length).map
        (fun j => (-1 : ℚ) ^ j * r.getD j 0 *
          detM (rs.map (fun row => row.eraseIdx j)))).sum
termination_by m => m.length
decreasing_by simp [List.length_map]

/-- Replace column `j` of a square matrix by `b`. -/
def replaceColM (m : List (List ℚ)) (j : Nat) (b : List ℚ) : List (List ℚ) :=
  (m.zip b).map (fun p => p.1.set j p.2)

/-- Solve `A x = b` by Cramer's rule (zero vector when singular). -/
def solveCramer (A : List (List ℚ)) (b : List ℚ) : List ℚ :=
  let d := detM A
  if d = 0 then A.map (fun _ => 0)
  else (List.range A.length).map (fun j => detM (replaceColM A j b) / d)

/-- Gram matrix `Xᵀ X` of the first `k` columns. -/
def xtx (rows : List (List ℚ)) (k : Nat) : List (List ℚ) :=
  (List.range k).map (fun i =>
    (List.range k).map (fun j => dotL (colOf rows i) (colOf rows j)))

/-- Moment vector `Xᵀ y`. -/
def xty (rows : List (List ℚ)) (y : List ℚ) (k : Nat) : List ℚ :=
  (List.range k).map (fun i => dotL (colOf rows i) y)

/-- OLS coefficients through the normal equations. -/
def olsCoeffs (y : List ℚ) (rows : List (List ℚ)) (k : Nat) : List ℚ :=
  solveCramer (xtx rows k) (xty rows y k)

/-- Fitted values of a design under given coefficients. -/
def fittedOf (rows : List (List ℚ)) (coeffs : List ℚ) : List ℚ :=
  rows.map (fun row => dotL row coeffs)

/-- Residual sum of squares of the OLS fit. -/
def ssr (y : List ℚ) (rows : List (List ℚ)) (k : Nat) : ℚ :=
  ((y.zip (fittedOf rows (olsCoeffs y rows k))).map (fun p => (p.1 - p.2) ^ 2)).sum

/-- Does the design carry an (explicit) constant, nonzero column? -/
def hasConstCol (rows : List (List ℚ)) (k : Nat) : Bool :=
  (List.range k).any (fun j =>
    ((colOf rows j).all (fun v => decide (v = (colOf rows j).headD 0))) &&
      decide ((colOf rows j).headD 0 ≠ 0))

/-- Centred total sum of squares. -/
def tssCentered (y : List ℚ) : ℚ :=
  (y.map (fun v => (v - meanQ y) ^ 2)).sum

/-- Uncentred total sum of squares. -/
def tssUncentered (y : List ℚ) : ℚ :=
  (y.map (fun v => v ^ 2)).sum

/-- `OLS(y, rows).fit().rsquared` as statsmodels computes it. -/
def rsquaredSM (y : List ℚ) (rows : List (List ℚ)) (k : Nat) : ℚ :=
  1 - ssr y rows k / (if hasConstCol rows k then tssCentered y else tssUncentered y)

/-- Drop column `i` from every row. -/
def dropColM (rows : List (List ℚ)) (i : Nat) : List (List ℚ) :=
  rows.map (fun r => r.eraseIdx i)

/-- `variance_inflation_factor(exog, i)` for a design of `k` columns:
regress column `i` on the `k - 1` other columns, return
`1 / (1 - R^2)` of that auxiliary regression. -/
def variance_inflation_factor (rows : List (List ℚ)) (k i : Nat) : ℚ :=
  1 / (1 - rsquaredSM (colOf rows i) (dropColM rows i) (k - 1))

/-- `sm.add_constant`. -/
def add_constant (rows : List (List ℚ)) : List (List ℚ) :=
  rows.map (fun r => 1 :: r)

/-- `vif_fama`: one VIF per variable of the constant-augmented design,
the intercept (`const`) included.  It takes only the regressor panel
(factor names and rows) — no fund series — so it is computed once per
panel, not once per regressed series. -/
def vif_fama (names : List String) (rows : List (List ℚ)) : List (String × ℚ) :=
  let withC := add_constant rows
  let vars := "const" :: names
  (List.range vars.length).map
    (fun i => (vars.getD i "", variance_inflation_factor withC vars.length i))

/-! ## Regression Engine, Fama-French path (`regression_fama`, cell 19)

Same structure as the CAPM path, with the three-column regressor panel
`df_regressor_fama[['ln excess', 'SMB', 'HML']]`; the linear solve
reuses the normal-equations machinery of the VIF section. -/

/-- The clean estimation rows of the Fama-French fit: the dependent
value paired with the regressor row (`ln excess`, `SMB`, `HML`) at
every timestamp where the dependent column and all regressor columns
are non-missing (`pd.concat([y, X], axis=1).dropna()` with the
three-column `X`). -/
def cleanRowsFama (y : Series) (Xs : List Series) : List (ℚ × List ℚ) :=
  (cleanKeys y Xs).map
    (fun t => ((getVal y t).getD 0, Xs.map (fun X => (getVal X t).getD 0)))

/-- Result record of one Fama-French fit (`results.params`,
`results.resid`, `results.fittedvalues`). -/
structure FamaFit where
  params : List ℚ
  resid : List ℚ
  fitted : List ℚ
deriving DecidableEq

/-- `sm.OLS(y_clean, sm.add_constant(X_clean)).fit()` for the
three-factor design: the constant-augmented rows are solved through
the shared normal-equations machinery (`olsCoeffs`, Cramer's rule),
which coincides with OLS whenever the design is full rank.  In the
rank-deficient case — in particular whenever fewer rows remain than
design columns — `statsmodels` returns the minimum-norm pseudoinverse
solution while this model returns the zero coefficient vector; either
way a parameter vector, one fitted value and one residual per
remaining row are produced, which is all the claims under study
depend on. -/
def olsFama (data : List (ℚ × List ℚ)) : FamaFit :=
  let rows := data.map (fun p => 1 :: p.2)
  let y := data.map Prod.fst
  let k := 1 + (data.headD (0, [])).2.length
  let coeffs := olsCoeffs y rows k
  let fitted := fittedOf rows coeffs
  { params := coeffs,
    resid := (y.zip fitted).map (fun p => p.1 - p.2),
    fitted := fitted }

/-- One dependent column's trip through `regression_fama`: join with
the three regressor columns, drop missing rows, fit.  As in
`regression_capm`, the source performs no minimum-observation check
and raises nothing, so the result is always `Except.ok` of the OLS
output, whatever the number of remaining rows. -/
def regression_fama_column (y : Series) (Xs : List Series) : Except RegError FamaFit :=
  Except.ok (olsFama (cleanRowsFama y Xs))

end CapmFama

namespace CapmFama

/-- Helper for C1: the code's zip over the shifted column unfolds to the
spec-side recursion. -/
theorem calc_log_returns_cons (log : ℚ → ℚ) (p : ℚ) (ps : List ℚ) :
    calculate_log_returns log (p :: ps) = none :: logReturnsSpec log p ps := by
  suffices h : ∀ (prev : ℚ) (l : List ℚ),
      List.zipWith (fun o c => Option.map (fun pr => log (pr / c)) o)
        ((prev :: l).dropLast.map some) l = logReturnsSpec log prev l by
    simpa [calculate_log_returns, shift1] using h p ps
  intro prev l
  induction l generalizing prev with
  | nil => simp [logReturnsSpec]
  | cons c rest ih =>
      simpa [logReturnsSpec] using ih c

/-- Helper for C1: length of the spec-side recursion. -/
theorem logReturnsSpec_length (log : ℚ → ℚ) (prev : ℚ) (l : List ℚ) :
    (logReturnsSpec log prev l).length = l.length := by
  induction l generalizing prev with
  | nil => simp [logReturnsSpec]
  | cons c rest ih => simp [logReturnsSpec, ih]

/-- Helper for C1: elementwise value of the spec-side recursion. -/
theorem logReturnsSpec_getD (log : ℚ → ℚ) (prev : ℚ) (l : List ℚ) (i : Nat)
    (hi : i < l.length) :
    (logReturnsSpec log prev l).getD i none =
      some (log ((prev :: l).getD i 0 / l.getD i 0)) := by
  induction l generalizing prev i with
  | nil => simp at hi
  | cons c rest ih =>
      cases i with
      | zero => simp [logReturnsSpec]
      | succ j =>
          have hj : j < rest.length := by simpa using hi
          simpa [logReturnsSpec] using ih c j hj

/-- **C1.** For every price column, `calculate_log_returns` pairs each
time step with its predecessor and yields `log (price_prev / price_curr)`
(previous price in the numerator); the first row carries no value
(`NaN`), and the pipeline's Return Transform stage (`df1 = df1[1:]`)
excludes it from the returned series' length, so the stage returns
exactly `length - 1` values.  In particular the price series
`[100, 105, 103, 108]` yields
`[log (100/105), log (105/103), log (103/108)]` with the first
timestamp dropped. -/
theorem C1_log_returns_pairwise (log : ℚ → ℚ) (p : ℚ) (ps : List ℚ) :
    (calculate_log_returns log (p :: ps)).head? = some none
    ∧ log_returns_stage log (p :: ps) = logReturnsSpec log p ps
    ∧ (log_returns_stage log (p :: ps)).length = (p :: ps).length - 1
    ∧ (∀ i, i < ps.length →
        (log_returns_stage log (p :: ps)).getD i none =
          some (log ((p :: ps).getD i 0 / ps.getD i 0)))
    ∧ log_returns_stage log [100, 105, 103, 108] =
        [some (log (100 / 105)), some (log (105 / 103)), some (log (103 / 108))] := by
  have hstage : log_returns_stage log (p :: ps) = logReturnsSpec log p ps := by
    simp [log_returns_stage, calc_log_returns_cons]
  refine ⟨by simp [calc_log_returns_cons], hstage, ?_, ?_, ?_⟩
  · simp [hstage, logReturnsSpec_length]
  · intro i hi
    rw [hstage]
    exact logReturnsSpec_getD log p ps i hi
  · have h := calc_log_returns_cons log 100 [105, 103, 108]
    simp [log_returns_stage, h, logReturnsSpec]

/-- Witness for C1 at the spec's own scenario, with `log`
instantiated by the identity function. -/
theorem C1_witness :
    (log_returns_stage (fun x => x) [100, 105, 103, 108]).getD 0 none =
      some ((fun x : ℚ => x) (100 / 105)) :=
  ((C1_log_returns_pairwise (fun x => x) 100 [105, 103, 108]).2.2.2.1) 0 (by decide)

/-- Helper for C3: the repaired series keeps all keys. -/
theorem repair_keys (s : Series) :
    (replace_nans_and_zeros_with_mean s).map Prod.fst = s.map Prod.fst := by
  unfold replace_nans_and_zeros_with_mean
  by_cases h : (validValues s).isEmpty
  · simp [h]
  · rw [if_neg h, List.map_map]
    apply List.map_congr_left
    intro p _
    by_cases hc : (p.2 = some 0 ∨ p.2 = none) ∧
        firstValidIndex s ≤ p.1 ∧ p.1 ≤ lastValidIndex s
    · simp [hc]
    · simp [hc]

/-- **C3.** `replace_nans_and_zeros_with_mean` computes the mean of all
values that are neither `NaN` nor exactly zero (`overallMean`, over
`validValues`); with no valid value the series is returned unchanged;
otherwise every `NaN`-or-zero value whose index lies in the inclusive
span `[firstValidIndex, lastValidIndex]` becomes that mean, valid
values are untouched, and no value outside the span is ever modified. -/
theorem C3_repair_gaps (s : Series) :
    (validValues s = [] → replace_nans_and_zeros_with_mean s = s)
    ∧ (replace_nans_and_zeros_with_mean s).map Prod.fst = s.map Prod.fst
    ∧ (∀ i, i < s.length →
        (¬ (firstValidIndex s ≤ (s.getD i (0, none)).1 ∧
              (s.getD i (0, none)).1 ≤ lastValidIndex s) →
          (replace_nans_and_zeros_with_mean s).getD i (0, none) = s.getD i (0, none))
        ∧ (validValues s ≠ [] →
            ((s.getD i (0, none)).2 = some 0 ∨ (s.getD i (0, none)).2 = none) →
            firstValidIndex s ≤ (s.getD i (0, none)).1 →
            (s.getD i (0, none)).1 ≤ lastValidIndex s →
            (replace_nans_and_zeros_with_mean s).getD i (0, none) =
              ((s.getD i (0, none)).1, some (overallMean s)))
        ∧ (∀ v : ℚ, (s.getD i (0, none)).2 = some v → v ≠ 0 →
            (replace_nans_and_zeros_with_mean s).getD i (0, none) = s.getD i (0, none))) := by
  refine ⟨fun h => by simp [replace_nans_and_zeros_with_mean, h], repair_keys s, ?_⟩
  intro i hi
  by_cases hv : (validValues s).isEmpty
  · have hid : replace_nans_and_zeros_with_mean s = s := by
      simp [replace_nans_and_zeros_with_mean, hv]
    refine ⟨fun _ => by rw [hid], fun hne => ?_, fun _ _ _ => by rw [hid]⟩
    exact absurd (List.isEmpty_iff.mp hv) hne
  · have hlen : i < (replace_nans_and_zeros_with_mean s).length := by
      have := congrArg List.length (repair_keys s)
      simpa using lt_of_lt_of_eq hi (by simpa using this.symm)
    have hmap : replace_nans_and_zeros_with_mean s =
        s.map (fun p =>
          if (p.2 = some 0 ∨ p.2 = none) ∧
              firstValidIndex s ≤ p.1 ∧ p.1 ≤ lastValidIndex s
          then (p.1, some (overallMean s))
          else p) := by
      simp [replace_nans_and_zeros_with_mean, hv]
    have hget : (replace_nans_and_zeros_with_mean s).getD i (0, none) =
        (if ((s.getD i (0, none)).2 = some 0 ∨ (s.getD i (0, none)).2 = none) ∧
            firstValidIndex s ≤ (s.getD i (0, none)).1 ∧
            (s.getD i (0, none)).1 ≤ lastValidIndex s
        then ((s.getD i (0, none)).1, some (overallMean s))
        else s.getD i (0, none)) := by
      rw [hmap]
      rw [List.getD_eq_getElem _ _ (by simpa using hi),
        List.getD_eq_getElem _ _ hi, List.getElem_map]
    refine ⟨fun hout => ?_, fun _ hz h1 h2 => ?_, fun v hval hv0 => ?_⟩
    · rw [hget, if_neg (fun hcon => hout hcon.2)]
    · rw [hget, if_pos ⟨hz, h1, h2⟩]
    · rw [hget, if_neg]
      rintro ⟨hz | hz, -⟩
      · rw [hz] at hval
        exact hv0 (Option.some.inj hval).symm
      · rw [hz] at hval
        exact Option.noConfusion hval

/-- Helper: `getD` through a cellwise map that sends `NaN` to `NaN`. -/
theorem getD_map_opt (g : Option ℚ → Option ℚ) (hg : g none = none)
    (l : List (Option ℚ)) (j : Nat) :
    (l.map g).getD j none = g (l.getD j none) := by
  induction l generalizing j with
  | nil => simp [hg]
  | cons v vs ih =>
      cases j with
      | zero => simp
      | succ k => simpa using ih k

/-- Helper: cell access through a row-wise cellwise map, for maps that
send `NaN` to `NaN`. -/
theorem cellAt_map (h : Nat → Option ℚ → Option ℚ) (hnone : ∀ t, h t none = none)
    (tbl : Table) (i j : Nat) :
    cellAt (tbl.map (fun p => (p.1, p.2.map (h p.1)))) i j =
      h (keyAt tbl i) (cellAt tbl i j) := by
  induction tbl generalizing i with
  | nil => simp [cellAt, keyAt, hnone]
  | cons p tl ih =>
      cases i with
      | zero =>
          simpa [cellAt, keyAt] using getD_map_opt (h p.1) (hnone p.1) p.2 j
      | succ k => simpa [cellAt, keyAt] using ih k

/-- Helper: cell access through `align_and_subtract`. -/
theorem cellAt_align (returns : Table) (rf : Series) (i j : Nat) :
    cellAt (align_and_subtract returns rf) i j =
      excessCell (getVal rf (keyAt returns i)) (cellAt returns i j) := by
  have h := cellAt_map (fun t v => excessCell (getVal rf t) v)
    (fun t => by simp [excessCell]) returns i j
  simpa [align_and_subtract] using h

/-- Helper: cell access through `replaceZeros`. -/
theorem cellAt_replaceZeros (tbl : Table) (i j : Nat) :
    cellAt (replaceZeros tbl) i j = zeroToNan (cellAt tbl i j) := by
  have h := cellAt_map (fun _ v => zeroToNan v) (fun _ => by simp [zeroToNan]) tbl i j
  simpa [replaceZeros] using h

/-- **C4.** The Excess Return Aligner reindexes the risk-free series
onto the return table's time index and, cell by cell, keeps an
exactly-zero return as zero and otherwise subtracts the reindexed
risk-free value (`NaN` propagating); afterwards a second pass replaces
every exactly-zero value in both the raw return table and the excess
table with missing. -/
theorem C4_align_and_subtract (returns : Table) (rf : Series) (i j : Nat) :
    cellAt (align_and_subtract returns rf) i j =
        excessCell (getVal rf (keyAt returns i)) (cellAt returns i j)
    ∧ (cellAt returns i j = some 0 →
        cellAt (align_and_subtract returns rf) i j = some 0)
    ∧ (cellAt returns i j ≠ some 0 →
        cellAt (align_and_subtract returns rf) i j =
          (cellAt returns i j).bind
            (fun a => (getVal rf (keyAt returns i)).map (fun b => a - b)))
    ∧ cellAt (excessStage returns rf).1 i j = zeroToNan (cellAt returns i j)
    ∧ cellAt (excessStage returns rf).2 i j =
        zeroToNan (cellAt (align_and_subtract returns rf) i j) := by
  refine ⟨cellAt_align returns rf i j, ?_, ?_, ?_, ?_⟩
  · intro h0
    rw [cellAt_align, h0]
    simp [excessCell]
  · intro h0
    rw [cellAt_align]
    simp [excessCell, h0]
  · exact cellAt_replaceZeros returns i j
  · exact cellAt_replaceZeros (align_and_subtract returns rf) i j

/-- Witness for C4: the return `7` at timestamp 1 is not zero, so the
risk-free value `2` is subtracted. -/
theorem C4_witness :
    cellAt (align_and_subtract
        [(1, [some 7, some 0]), (2, [none, some 3])]
        [(1, some 2), (2, some 3)]) 0 0 =
      (cellAt [(1, [some 7, some 0]), (2, [none, some 3])] 0 0).bind
        (fun a => (getVal [(1, some 2), (2, some 3)]
            (keyAt [(1, [some 7, some 0]), (2, [none, some 3])] 0)).map
          (fun b => a - b)) :=
  (C4_align_and_subtract
      [(1, [some 7, some 0]), (2, [none, some 3])]
      [(1, some 2), (2, some 3)] 0 0).2.2.1 (by decide)

/-- **C9.** After the Excess Return Aligner stage no cell of the raw
return table or of the excess table is exactly zero; in particular an
excess return that is genuinely `0` because the return equals the
risk-free rate at that timestamp ends up missing, not preserved as an
observation. -/
theorem C9_zero_free_after_stage (returns : Table) (rf : Series) :
    (∀ i j, cellAt (excessStage returns rf).1 i j ≠ some 0)
    ∧ (∀ i j, cellAt (excessStage returns rf).2 i j ≠ some 0)
    ∧ (∀ i j r, cellAt returns i j = some r → r ≠ 0 →
        getVal rf (keyAt returns i) = some r →
        cellAt (excessStage returns rf).2 i j = none) := by
  have hz : ∀ v, zeroToNan v ≠ some 0 := by
    intro v
    unfold zeroToNan
    by_cases h : v = some 0 <;> simp [h]
  refine ⟨?_, ?_, ?_⟩
  · intro i j
    rw [show (excessStage returns rf).1 = replaceZeros returns from rfl,
      cellAt_replaceZeros]
    exact hz _
  · intro i j
    rw [show (excessStage returns rf).2 = replaceZeros (align_and_subtract returns rf) from rfl,
      cellAt_replaceZeros]
    exact hz _
  · intro i j r hcell hr hrf
    rw [show (excessStage returns rf).2 = replaceZeros (align_and_subtract returns rf) from rfl,
      cellAt_replaceZeros, cellAt_align, hcell, hrf]
    simp [excessCell, zeroToNan, hr]

/-- Witness for C9: at timestamp 2 the return `3` equals the risk-free
rate `3`, so the genuinely-zero excess return is converted to missing
by the final replacement pass. -/
theorem C9_witness :
    cellAt (excessStage
        [(1, [some 7, some 0]), (2, [none, some 3])]
        [(1, some 2), (2, some 3)]).2 1 1 = none :=
  (C9_zero_free_after_stage
      [(1, [some 7, some 0]), (2, [none, some 3])]
      [(1, some 2), (2, some 3)]).2.2 1 1 3
    (by decide) (by decide) (by decide)

/-- Helper: looking a key up in a key-tagged map of a key list. -/
theorem lookup_key_map (f : Nat → ℚ) (l : List Nat) (t : Nat) :
    List.lookup t (l.map (fun u => (u, f u))) =
      if t ∈ l then some (f t) else none := by
  induction l with
  | nil => simp
  | cons u us ih =>
      by_cases h : t = u
      · subst h
        simp [List.lookup]
      · have hb : (t == u) = false := by simpa using h
        simp [List.lookup, hb, ih, h]

/-- Helper: a `filterMap` by an if-some-else-none function is a map
over a filter. -/
theorem filterMap_ite (q : Nat → Bool) (f : Nat → Nat × ℚ) (l : List Nat) :
    l.filterMap (fun t => if q t then some (f t) else none) =
      (l.filter q).map f := by
  induction l with
  | nil => simp
  | cons u us ih =>
      by_cases h : q u <;> simp [h, ih]

/-- **C2.** Residual (and fitted-value) series are re-expanded onto the
original, pre-drop time index (the keys of the re-expanded series are
exactly the original index, dropped timestamps holding `NaN`), and
re-dropping the missing rows recovers exactly the estimation rows:
the timestamps at which the dependent column and all regressor columns
were simultaneously non-missing, with their estimation values. -/
theorem C2_residual_roundtrip (y : Series) (Xs : List Series) (resid : Nat → ℚ)
    (_hnd : (y.map Prod.fst).Nodup) :
    (reexpandOntoOriginal y Xs resid).map Prod.fst = y.map Prod.fst
    ∧ dropna (reexpandOntoOriginal y Xs resid) = onCleanKeys y Xs resid
    ∧ (dropna (reexpandOntoOriginal y Xs resid)).map Prod.fst = cleanKeys y Xs := by
  have hidx : (reexpandOntoOriginal y Xs resid).map Prod.fst = y.map Prod.fst := by
    simp [reexpandOntoOriginal, reindexOnto, List.map_map, Function.comp]
  have hdrop : dropna (reexpandOntoOriginal y Xs resid) = onCleanKeys y Xs resid := by
    unfold reexpandOntoOriginal reindexOnto dropna
    rw [List.filterMap_map]
    have h1 : ∀ t, List.lookup t (onCleanKeys y Xs resid) =
        if t ∈ cleanKeys y Xs then some (resid t) else none := by
      intro t
      simpa [onCleanKeys] using lookup_key_map resid (cleanKeys y Xs) t
    have h2 : (y.map Prod.fst).filterMap
        ((fun p : Nat × Option ℚ => p.2.map (fun v => (p.1, v))) ∘
          fun t => (t, List.lookup t (onCleanKeys y Xs resid))) =
        (y.map Prod.fst).filterMap
          (fun t => if ((getVal y t).isSome &&
              Xs.all (fun X => (getVal X t).isSome) : Bool)
            then some (t, resid t) else none) := by
      apply List.filterMap_congr
      intro t ht
      simp only [Function.comp_apply, h1]
      by_cases hq : ((getVal y t).isSome &&
          Xs.all (fun X => (getVal X t).isSome)) = true
      · have hmem : t ∈ cleanKeys y Xs := by
          unfold cleanKeys
          exact List.mem_filter.mpr ⟨ht, hq⟩
        simp [hmem, hq]
      · have hmem : t ∉ cleanKeys y Xs := by
          unfold cleanKeys
          intro hc
          exact hq (List.mem_filter.mp hc).2
        simp [hmem, hq]
    rw [h2, filterMap_ite _ (fun t => (t, resid t)) _]
    rfl
  refine ⟨hidx, hdrop, ?_⟩
  rw [hdrop]
  simp only [onCleanKeys, List.map_map]
  have hfst : (Prod.fst ∘ fun t : Nat => (t, resid t)) = id := by
    funext t
    rfl
  rw [hfst, List.map_id]

/-- Witness for C2: `y` has a missing value at timestamp 2, the
regressor is missing at timestamp 3; the round trip recovers exactly
timestamp 1, the only row used during estimation. -/
theorem C2_witness :
    dropna (reexpandOntoOriginal [(1, some 2), (2, none), (3, some 5)]
        [[(1, some 1), (2, some 1)]] (fun _ => 1)) =
      onCleanKeys [(1, some 2), (2, none), (3, some 5)]
        [[(1, some 1), (2, some 1)]] (fun _ => 1) :=
  (C2_residual_roundtrip [(1, some 2), (2, none), (3, some 5)]
    [[(1, some 1), (2, some 1)]] (fun _ => 1) (by decide)).2.1

/-- **C5 (counterexample).** With a single remaining observation —
fewer than factor count + 1 = 2 — `regression_capm` does not fail with
`InsufficientDataError`: it has no insufficient-data check at all and
returns an ordinary (degenerate, pseudoinverse-based) fit. -/
theorem C5_counterexample :
    (cleanPairs [(1, some 3)] [(1, some 0)]).length = 1
    ∧ (cleanPairs [(1, some 3)] [(1, some 0)]).length < 1 + 1
    ∧ regression_capm_column [(1, some 3)] [(1, some 0)] =
        Except.ok { alpha := 3, beta := 0, resid := [0], fitted := [3] }
    ∧ regression_capm_column [(1, some 3)] [(1, some 0)] ≠
        Except.error RegError.insufficientData := by
  have hclean : cleanPairs [(1, some 3)] [(1, some 0)] = [(3, 0)] := by
    decide
  have hfit : regression_capm_column [(1, some 3)] [(1, some 0)] =
      Except.ok { alpha := 3, beta := 0, resid := [0], fitted := [3] } := by
    show Except.ok (olsCAPM (cleanPairs [(1, some 3)] [(1, some 0)])) = _
    rw [hclean]
    unfold olsCAPM
    norm_num
  refine ⟨by rw [hclean]; rfl, by rw [hclean]; norm_num, hfit, ?_⟩
  rw [hfit]
  intro h
  exact Except.noConfusion h

/-- **C5 (amended).** When fewer observations remain than
factor count + 1 after dropping missing rows, neither `regression_capm`
(1 factor, threshold 2) nor `regression_fama` (a panel of `Xs.length`
factors — 3 in the notebook — threshold `Xs.length + 1`) fails with
`InsufficientDataError`: the source performs no minimum-observation
check and raises no error of any kind, and each fit still returns its
statistics, with one residual and one fitted value per remaining
row. -/
theorem C5_amended_no_insufficient_check (y X : Series) (Xs : List Series)
    (_hfewCapm : (cleanPairs y X).length < 1 + 1)
    (_hfewFama : (cleanRowsFama y Xs).length < Xs.length + 1) :
    ((∃ fit, regression_capm_column y X = Except.ok fit
        ∧ fit.resid.length = (cleanPairs y X).length
        ∧ fit.fitted.length = (cleanPairs y X).length)
      ∧ ∀ e, regression_capm_column y X ≠ Except.error e)
    ∧ ((∃ fit, regression_fama_column y Xs = Except.ok fit
        ∧ fit.resid.length = (cleanRowsFama y Xs).length
        ∧ fit.fitted.length = (cleanRowsFama y Xs).length)
      ∧ ∀ e, regression_fama_column y Xs ≠ Except.error e) := by
  refine ⟨⟨⟨olsCAPM (cleanPairs y X), rfl, ?_, ?_⟩,
      fun e h => Except.noConfusion h⟩,
    ⟨olsFama (cleanRowsFama y Xs), rfl, ?_, ?_⟩,
      fun e h => Except.noConfusion h⟩
  · unfold olsCAPM
    simp
  · unfold olsCAPM
    simp
  · unfold olsFama fittedOf
    simp
  · unfold olsFama fittedOf
    simp

/-- Witness for C5 (amended) at a one-row input: one clean observation
against one CAPM regressor (threshold 2) and against a three-factor
panel (threshold 4). -/
theorem C5_witness :
    ((∃ fit, regression_capm_column [(1, some 3)] [(1, some 0)] = Except.ok fit
        ∧ fit.resid.length = (cleanPairs [(1, some 3)] [(1, some 0)]).length
        ∧ fit.fitted.length = (cleanPairs [(1, some 3)] [(1, some 0)]).length)
      ∧ ∀ e, regression_capm_column [(1, some 3)] [(1, some 0)] ≠ Except.error e)
    ∧ ((∃ fit, regression_fama_column [(1, some 3)]
          [[(1, some 0)], [(1, some 1)], [(1, some 2)]] = Except.ok fit
        ∧ fit.resid.length = (cleanRowsFama [(1, some 3)]
            [[(1, some 0)], [(1, some 1)], [(1, some 2)]]).length
        ∧ fit.fitted.length = (cleanRowsFama [(1, some 3)]
            [[(1, some 0)], [(1, some 1)], [(1, some 2)]]).length)
      ∧ ∀ e, regression_fama_column [(1, some 3)]
          [[(1, some 0)], [(1, some 1)], [(1, some 2)]] ≠ Except.error e) :=
  C5_amended_no_insufficient_check [(1, some 3)] [(1, some 0)]
    [[(1, some 0)], [(1, some 1)], [(1, some 2)]] (by decide) (by decide)

/-- Helper: reading a list back from `getD` over its range. -/
theorem getD_range_map {α : Type} (l : List α) (d : α) :
    (List.range l.length).map (fun i => l.getD i d) = l := by
  induction l with
  | nil => simp
  | cons a tl ih =>
      rw [List.length_cons, List.range_succ_eq_map, List.map_cons, List.map_map]
      have hc : ((fun i => (a :: tl).getD i d) ∘ Nat.succ) =
          fun i => tl.getD i d := by
        funext i
        rfl
      rw [hc, ih]
      simp

/-- **C7.** `vif_fama` computes, from a regressor panel alone (one call
per panel; its only input is the panel — no fund series), one VIF value
per variable of the constant-augmented design, the `const` intercept
column included: the result has exactly `#factors + 1` rows, the
variable names are `const` followed by the factor names, and the `i`-th
value is `variance_inflation_factor` of column `i`, i.e. `1 / (1 - R²)`
of the auxiliary regression of that column on all the other columns. -/
theorem C7_vif_once_per_panel (names : List String) (rows : List (List ℚ)) :
    (vif_fama names rows).length = names.length + 1
    ∧ (vif_fama names rows).map Prod.fst = "const" :: names
    ∧ (∀ i, i < names.length + 1 →
        (vif_fama names rows).getD i ("", 0) =
          (("const" :: names).getD i "",
            variance_inflation_factor (add_constant rows) (names.length + 1) i)) := by
  refine ⟨by simp [vif_fama], ?_, ?_⟩
  · unfold vif_fama
    simp only [List.map_map]
    have hc : (Prod.fst ∘ fun i =>
        (("const" :: names).getD i "",
          variance_inflation_factor (add_constant rows) ("const" :: names).length i)) =
        fun i => ("const" :: names).getD i "" := by
      funext i
      rfl
    rw [hc]
    exact getD_range_map ("const" :: names) ""
  · intro i hi
    unfold vif_fama
    have hilen : i < ("const" :: names).length := by simpa using hi
    have hmlen : i < ((List.range ("const" :: names).length).map
        (fun i => (("const" :: names).getD i "",
          variance_inflation_factor (add_constant rows)
            ("const" :: names).length i))).length := by
      simpa using hi
    rw [List.getD_eq_getElem _ _ hmlen, List.getElem_map, List.getElem_range]
    rfl

/-- Witness for C7 on a one-factor panel. -/
theorem C7_witness :
    (vif_fama ["x"] [[1], [2]]).getD 0 ("", 0) =
      (("const" :: ["x"]).getD 0 "",
        variance_inflation_factor (add_constant [[1], [2]])
          (["x"].length + 1) 0) :=
  (C7_vif_once_per_panel ["x"] [[1], [2]]).2.2 0 (by decide)

/-- Helper: every row `testColumn` emits carries the column's name. -/
theorem testColumn_fund (B : StatBackend) (reg : List (TKey × List ℚ))
    (name : String) (col : TSeries) (r : ColumnRows)
    (h : testColumn B reg name col = some r) :
    r.bp.fund = name ∧ r.white.fund = name
    ∧ r.shapiro.fund = name ∧ r.jb.fund = name := by
  unfold testColumn at h
  cases hconv : convertIndex col with
  | none =>
      rw [hconv] at h
      exact Option.noConfusion h
  | some r0 =>
      rw [hconv] at h
      have he := Option.some.inj h
      rw [← he]
      exact ⟨rfl, rfl, rfl, rfl⟩

/-- Helper: a `filterMap` is strictly shorter than its input when some
element maps to `none`. -/
theorem length_filterMap_lt {α β : Type} (f : α → Option β) (l : List α)
    (a : α) (ha : a ∈ l) (hf : f a = none) :
    (l.filterMap f).length < l.length := by
  induction l with
  | nil => cases ha
  | cons c tl ih =>
      rcases List.mem_cons.mp ha with rfl | hmem
      · rw [List.filterMap_cons, hf]
        exact Nat.lt_succ_of_le (List.length_filterMap_le f tl)
      · rw [List.filterMap_cons]
        cases hfc : f c with
        | none =>
            simpa using Nat.lt_succ_of_lt (ih hmem)
        | some b =>
            simpa using Nat.succ_lt_succ (ih hmem)

/-- **C10.** A residual column whose (non-missing) index cannot be
converted to datetime is skipped — `combined_tests` still returns, the
column's fund appears in none of the four result tables, every column
`testColumn` does process contributes its rows to all four tables, and
all four tables have the same length, strictly smaller than the number
of input columns. -/
theorem C10_unconvertible_skipped (B : StatBackend) (reg : List (TKey × List ℚ))
    (cols : List (String × TSeries)) (bad : String × TSeries)
    (hmem : bad ∈ cols)
    (hbad : testColumn B reg bad.1 bad.2 = none)
    (hnames : (cols.map Prod.fst).Nodup) :
    bad.1 ∉ (combined_tests B cols reg).1.map HetRow.fund
    ∧ bad.1 ∉ (combined_tests B cols reg).2.1.map HetRow.fund
    ∧ bad.1 ∉ (combined_tests B cols reg).2.2.1.map ShapiroRow.fund
    ∧ bad.1 ∉ (combined_tests B cols reg).2.2.2.map JBRow.fund
    ∧ (∀ c ∈ cols, ∀ r, testColumn B reg c.1 c.2 = some r →
        r.bp ∈ (combined_tests B cols reg).1
        ∧ r.white ∈ (combined_tests B cols reg).2.1
        ∧ r.shapiro ∈ (combined_tests B cols reg).2.2.1
        ∧ r.jb ∈ (combined_tests B cols reg).2.2.2)
    ∧ (combined_tests B cols reg).1.length < cols.length
    ∧ (combined_tests B cols reg).1.length = (combined_tests B cols reg).2.1.length
    ∧ (combined_tests B cols reg).1.length = (combined_tests B cols reg).2.2.1.length
    ∧ (combined_tests B cols reg).1.length = (combined_tests B cols reg).2.2.2.length := by
  have habs : ∀ g : ColumnRows → String,
      (∀ (n : String) (c : TSeries) (r : ColumnRows),
        testColumn B reg n c = some r → g r = n) →
      bad.1 ∉ (cols.filterMap (fun p => testColumn B reg p.1 p.2)).map g := by
    intro g hg hin
    rcases List.mem_map.mp hin with ⟨row, hrow, hfund⟩
    rcases List.mem_filterMap.mp hrow with ⟨c, hc, hrun⟩
    have hname : c.1 = bad.1 := by rw [← hfund, hg c.1 c.2 row hrun]
    have hceq : c = bad :=
      List.inj_on_of_nodup_map hnames hc hmem hname
    rw [hceq] at hrun
    rw [hbad] at hrun
    exact Option.noConfusion hrun
  refine ⟨?_, ?_, ?_, ?_, ?_, ?_, ?_, ?_, ?_⟩
  · have h := habs (fun r => r.bp.fund)
      (fun n c r hr => (testColumn_fund B reg n c r hr).1)
    simpa [combined_tests, List.map_map, Function.comp] using h
  · have h := habs (fun r => r.white.fund)
      (fun n c r hr => (testColumn_fund B reg n c r hr).2.1)
    simpa [combined_tests, List.map_map, Function.comp] using h
  · have h := habs (fun r => r.shapiro.fund)
      (fun n c r hr => (testColumn_fund B reg n c r hr).2.2.1)
    simpa [combined_tests, List.map_map, Function.comp] using h
  · have h := habs (fun r => r.jb.fund)
      (fun n c r hr => (testColumn_fund B reg n c r hr).2.2.2)
    simpa [combined_tests, List.map_map, Function.comp] using h
  · intro c hc r hrun
    have hr : r ∈ cols.filterMap (fun p => testColumn B reg p.1 p.2) :=
      List.mem_filterMap.mpr ⟨c, hc, hrun⟩
    exact ⟨List.mem_map_of_mem _ hr, List.mem_map_of_mem _ hr,
      List.mem_map_of_mem _ hr, List.mem_map_of_mem _ hr⟩
  · have h := length_filterMap_lt (fun p => testColumn B reg p.1 p.2) cols bad
      hmem hbad
    simpa [combined_tests] using h
  · simp [combined_tests]
  · simp [combined_tests]
  · simp [combined_tests]

/-- Witness for C10: column `A` has a non-datetime label in its index
and is skipped; column `B` is processed. -/
theorem C10_witness :
    "A" ∉ (combined_tests constBackend
        [("A", [(TKey.text "label", some 1)]), ("B", [(TKey.date 1, some 2)])]
        [(TKey.date 1, [2])]).1.map HetRow.fund :=
  (C10_unconvertible_skipped constBackend [(TKey.date 1, [2])]
    [("A", [(TKey.text "label", some 1)]), ("B", [(TKey.date 1, some 2)])]
    ("A", [(TKey.text "label", some 1)])
    (by decide) (by decide) (by decide)).1

/-- Helper: head of an insertion step. -/
theorem insertSorted_head (p : Nat × ℚ) (l : List (Nat × ℚ)) :
    (insertSorted p l).head? = some p ∨ (insertSorted p l).head? = l.head? := by
  cases l with
  | nil => exact Or.inl rfl
  | cons q qs =>
      unfold insertSorted
      by_cases hle : p.1 ≤ q.1
      · rw [if_pos hle]
        exact Or.inl rfl
      · rw [if_neg hle]
        exact Or.inr rfl

/-- Helper: inserting into a key-sorted list keeps it key-sorted. -/
theorem chain_insertSorted (p : Nat × ℚ) :
    ∀ l, List.Chain' (fun a b : Nat × ℚ => a.1 ≤ b.1) l →
      List.Chain' (fun a b : Nat × ℚ => a.1 ≤ b.1) (insertSorted p l)
  | [], _ => by simp [insertSorted]
  | q :: qs, h => by
      unfold insertSorted
      by_cases hle : p.1 ≤ q.1
      · rw [if_pos hle]
        exact List.chain'_cons.mpr ⟨hle, h⟩
      · rw [if_neg hle]
        rcases List.chain'_cons'.mp h with ⟨hhd, htl⟩
        refine List.chain'_cons'.mpr ⟨?_, chain_insertSorted p qs htl⟩
        intro y hy
        rcases insertSorted_head p qs with hh | hh
        · rw [hh] at hy
          have hyp : p = y := by simpa using hy
          rw [← hyp]
          exact le_of_not_le hle
        · rw [hh] at hy
          exact hhd y hy

/-- Helper: `sort_index()` produces an ascending time index. -/
theorem chain_sortByKey :
    ∀ l, List.Chain' (fun a b : Nat × ℚ => a.1 ≤ b.1) (sortByKey l)
  | [] => by simp [sortByKey]
  | p :: ps => by
      unfold sortByKey
      exact chain_insertSorted p (sortByKey ps) (chain_sortByKey ps)

/-- **C6 (counterexample).** A residual series whose index holds a
label `pd.to_datetime` cannot convert is *skipped*: `combined_tests`
runs to completion and returns four tables without the series — it
does not fail with an `IndexAlignmentError` (no such error exists in
the code). -/
theorem C6_counterexample :
    dropnaT [(TKey.text "notadate", some 1)] = [(TKey.text "notadate", 1)]
    ∧ convertIndex [(TKey.text "notadate", some 1)] = none
    ∧ combined_tests constBackend [("FundA", [(TKey.text "notadate", some 1)])]
        [(TKey.date 1, [2])] = ([], [], [], []) :=
  ⟨rfl, rfl, rfl⟩

/-- **C6 (amended).** The diagnostic suite converts the residual index
to datetime and sorts it ascending before testing; when the index
cannot be converted, the series is skipped (its column leaves the four
output tables untouched and the remaining columns are processed
exactly as without it) and no exception of any kind is raised —
in particular no `IndexAlignmentError`. -/
theorem C6_amended_skip_not_fail (B : StatBackend) (reg : List (TKey × List ℚ))
    (name : String) (col : TSeries) (cols : List (String × TSeries))
    (hskip : testColumn B reg name col = none) :
    combined_tests B ((name, col) :: cols) reg = combined_tests B cols reg
    ∧ (∀ r0, List.Chain' (fun a b : Nat × ℚ => a.1 ≤ b.1) (sortByKey r0)) := by
  constructor
  · simp [combined_tests, List.filterMap_cons, hskip]
  · exact chain_sortByKey

/-- Witness for C6 (amended): dropping the unconvertible column does
not change the suite's output. -/
theorem C6_witness :
    combined_tests constBackend
        [("FundC", [(TKey.text "oops", some 1)]), ("FundD", [(TKey.date 1, some 2)])]
        [(TKey.date 1, [2])] =
      combined_tests constBackend [("FundD", [(TKey.date 1, some 2)])]
        [(TKey.date 1, [2])] :=
  (C6_amended_skip_not_fail constBackend [(TKey.date 1, [2])]
    "FundC" [(TKey.text "oops", some 1)]
    [("FundD", [(TKey.date 1, some 2)])] (by decide)).1

/-- **C8.** For every residual column the suite processes, the
Jarque-Bera record carries the statistic, its p-value (the χ²(2)
survival function of that statistic), the sample skewness and the
sample kurtosis in the Pearson convention (`fisher=False`: a normal
sample has kurtosis 3 — Pearson kurtosis is Fisher's excess kurtosis
plus 3), all four computed on the same residual sample
(`residSample`: the non-missing, datetime-indexed, ascending-sorted
residuals). -/
theorem C8_jarque_bera_same_sample (B : StatBackend) (reg : List (TKey × List ℚ))
    (name : String) (col : TSeries) (rows : ColumnRows)
    (hrun : testColumn B reg name col = some rows) :
    rows.jb = { fund := name,
                stat := jbStat B.sqrtQ (residSample col),
                pval := B.chi2sf2 (jbStat B.sqrtQ (residSample col)),
                skewness := skewSample B.sqrtQ (residSample col),
                kurtosis := kurtosisPearson (residSample col) }
    ∧ (∀ xs : List ℚ, kurtosisPearson xs = kurtosisFisher xs + 3) := by
  constructor
  · unfold testColumn at hrun
    cases hconv : convertIndex col with
    | none =>
        rw [hconv] at hrun
        exact Option.noConfusion hrun
    | some r0 =>
        rw [hconv] at hrun
        have he := Option.some.inj hrun
        rw [← he]
        simp [residSample, hconv]
  · intro xs
    unfold kurtosisPearson kurtosisFisher
    ring

/-- Witness for C8 on a concrete two-point residual column (sorted
sample `[4, 5]`). -/
theorem C8_witness :
    ({ bp := { fund := "B", lm := 0, lmPval := 0, fstat := 0, fPval := 0 },
       white := { fund := "B", lm := 0, lmPval := 0, fstat := 0, fPval := 0 },
       shapiro := { fund := "B", stat := 0, pval := 0 },
       jb := { fund := "B", stat := jbStat constBackend.sqrtQ [4, 5],
               pval := constBackend.chi2sf2 (jbStat constBackend.sqrtQ [4, 5]),
               skewness := skewSample constBackend.sqrtQ [4, 5],
               kurtosis := kurtosisPearson [4, 5] } } : ColumnRows).jb =
      { fund := "B",
        stat := jbStat constBackend.sqrtQ
          (residSample [(TKey.date 2, some 5), (TKey.date 1, some 4)]),
        pval := constBackend.chi2sf2 (jbStat constBackend.sqrtQ
          (residSample [(TKey.date 2, some 5), (TKey.date 1, some 4)])),
        skewness := skewSample constBackend.sqrtQ
          (residSample [(TKey.date 2, some 5), (TKey.date 1, some 4)]),
        kurtosis := kurtosisPearson
          (residSample [(TKey.date 2, some 5), (TKey.date 1, some 4)]) }
    ∧ (∀ xs : List ℚ, kurtosisPearson xs = kurtosisFisher xs + 3) :=
  C8_jarque_bera_same_sample constBackend [(TKey.date 1, [2]), (TKey.date 2, [3])]
    "B" [(TKey.date 2, some 5), (TKey.date 1, some 4)]
    { bp := { fund := "B", lm := 0, lmPval := 0, fstat := 0, fPval := 0 },
      white := { fund := "B", lm := 0, lmPval := 0, fstat := 0, fPval := 0 },
      shapiro := { fund := "B", stat := 0, pval := 0 },
      jb := { fund := "B", stat := jbStat constBackend.sqrtQ [4, 5],
              pval := constBackend.chi2sf2 (jbStat constBackend.sqrtQ [4, 5]),
              skewness := skewSample constBackend.sqrtQ [4, 5],
              kurtosis := kurtosisPearson [4, 5] } }
    rfl

/-- Witness for C3: a concrete series with an interior gap.  Valid
values are `5` (key 1) and `7` (key 4), mean `6`; the zero at key 2
and the `NaN` at key 3 are repaired, the trailing zero at key 5 is
outside the valid span and untouched. -/
theorem C3_witness :
    (replace_nans_and_zeros_with_mean
        [(1, some 5), (2, some 0), (3, none), (4, some 7), (5, some 0)]).getD 1 (0, none) =
      (2, some (overallMean [(1, some 5), (2, some 0), (3, none), (4, some 7), (5, some 0)]))
    ∧ (replace_nans_and_zeros_with_mean
        [(1, some 5), (2, some 0), (3, none), (4, some 7), (5, some 0)]).getD 4 (0, none) =
      (5, some 0) := by
  have h := C3_repair_gaps
    [(1, some 5), (2, some 0), (3, none), (4, some 7), (5, some 0)]
  refine ⟨(h.2.2 1 (by decide)).2.1 (by decide) (by decide) (by decide) (by decide), ?_⟩
  exact (h.2.2 4 (by decide)).1 (by decide)

end CapmFama
